import Mathlib

/-!
Shallow embedding of `src/inline_kf_script.py` (price-hound): filename
metadata parsing, CSV loading control flow, the tidy transform's per-field
cleaning steps, the column renaming, and the cheese watch-list filter.

Python strings are modelled as Lean `String`; pandas cell values as the
inductive `PVal` (missing / string / number); numpy float semantics where
division can overflow to infinity as `FVal`.  All definitions are
executable so concrete scenarios evaluate by `decide`/`rfl`.
-/

/-- Python `str.endswith` on character lists. -/
def pyEndsWith (s suf : String) : Bool :=
  suf.toList.isSuffixOf s.toList

/-- Python `str.removesuffix`: drop one occurrence of `suf` from the end
when present, otherwise return the string unchanged. -/
def removeSuf (s suf : String) : String :=
  if pyEndsWith s suf then String.mk (s.toList.take (s.toList.length - suf.toList.length))
  else s

/-- Python `str.removeprefix`. -/
def removePref (s pre : String) : String :=
  if pre.toList.isPrefixOf s.toList then String.mk (s.toList.drop pre.toList.length)
  else s

/-- Python `str.strip()` on character lists (whitespace both ends). -/
def stripChars (l : List Char) : List Char :=
  ((l.dropWhile Char.isWhitespace).reverse.dropWhile Char.isWhitespace).reverse

/-- Python `str.strip()`. -/
def pyStrip (s : String) : String :=
  String.mk (stripChars s.toList)

/-- Fuel-driven scan implementing Python `str.replace`: replace
non-overlapping occurrences of `pat` left to right. -/
def replaceAux (pat rep : List Char) : Nat → List Char → List Char
  | _, [] => []
  | 0, l => l
  | fuel + 1, c :: rest =>
    if pat.isPrefixOf (c :: rest) then
      rep ++ replaceAux pat rep fuel ((c :: rest).drop pat.length)
    else
      c :: replaceAux pat rep fuel rest

/-- Python `str.replace(old, new)` (all occurrences; `old` nonempty here). -/
def pyReplace (s old new : String) : String :=
  if old.toList.isEmpty then s
  else String.mk (replaceAux old.toList new.toList s.toList.length s.toList)

/-- Substring test on character lists (Python `in` / regex literal match). -/
def containsSub (needle : List Char) : List Char → Bool
  | [] => needle.isEmpty
  | c :: rest => needle.isPrefixOf (c :: rest) || containsSub needle rest

/-- Python `sub in s`. -/
def pyContains (s sub : String) : Bool :=
  containsSub sub.toList s.toList

/-- `re.split(r"_+", x)`: split on maximal runs of underscores, keeping
empty pieces at the ends (fuel-driven to stay structural). -/
def splitRunsAux : Nat → List Char → List Char → List String
  | _, [], acc => [String.mk acc.reverse]
  | 0, _, acc => [String.mk acc.reverse]
  | fuel + 1, c :: rest, acc =>
    if c = '_' then
      String.mk acc.reverse :: splitRunsAux fuel (rest.dropWhile (fun d => d = '_')) []
    else
      splitRunsAux fuel rest (c :: acc)

/-- Split a string on runs of one or more underscores. -/
def splitUnderscoreRuns (s : String) : List String :=
  splitRunsAux s.toList.length s.toList []

/-- A pandas cell value: missing (`NaN`/`pd.NA`), a string, or a number. -/
inductive PVal where
  | na
  | str (s : String)
  | num (q : Rat)
deriving DecidableEq, Repr

/-- `replace_with_dot_if_number` from the source: missing stays missing,
numbers pass through, the empty string becomes missing, any other string
has its commas replaced by dots. -/
def replace_with_dot_if_number (x : PVal) : PVal :=
  match x with
  | .na => .na
  | .num q => .num q
  | .str s => if s.toList.length = 0 then .na else .str (pyReplace s "," ".")

/-- `prepare_anchor` from the source: split a `"date=price"` composite on
its single `=` into trimmed halves; a missing value or a string with zero
or several `=` yields two missing values plus a logged warning (the `Bool`
records that a warning was emitted). -/
def prepare_anchor (s : Option String) : (Option String × Option String) × Bool :=
  match s with
  | none => ((none, none), true)
  | some s =>
    if (s.toList.filter (fun c => c = '=')).length ≠ 1 then
      ((none, none), true)
    else
      ((some (pyStrip (String.mk (s.toList.takeWhile (fun c => c ≠ '=')))),
        some (pyStrip (String.mk ((s.toList.dropWhile (fun c => c ≠ '=')).drop 1)))),
       false)

/-- Numeric value of a list of ASCII digits. -/
def natOfDigits (l : List Char) : Nat :=
  l.foldl (fun n c => 10 * n + (c.toNat - 48)) 0

/-- Parse an unsigned decimal literal (digits, optional dot, digits). -/
def parseUnsignedDec (l : List Char) : Option Rat :=
  match l.span Char.isDigit with
  | (ip, []) => if ip.isEmpty then none else some (natOfDigits ip : Rat)
  | (ip, '.' :: fp) =>
    if fp.all Char.isDigit && !(ip.isEmpty && fp.isEmpty) then
      some ((natOfDigits ip : Rat) + (natOfDigits fp : Rat) / ((10 : Rat) ^ fp.length))
    else none
  | _ => none

/-- Numeric parse performed by `pd.to_numeric` / `float()` on a string:
surrounding whitespace is ignored, an optional leading minus sign,
then a plain or dotted decimal literal. -/
def parseDecimal (s : String) : Option Rat :=
  match stripChars s.toList with
  | '-' :: rest => (parseUnsignedDec rest).map (fun q => -q)
  | l => parseUnsignedDec l

/-- A calendar date. -/
structure Date where
  day : Nat
  month : Nat
  year : Nat
deriving DecidableEq, Repr

/-- Day count of a month, Gregorian rules. -/
def daysInMonth (y m : Nat) : Nat :=
  if m = 2 then
    if y % 4 = 0 && (y % 100 ≠ 0 || y % 400 = 0) then 29 else 28
  else if m = 4 || m = 6 || m = 9 || m = 11 then 30
  else 31

/-- `pd.to_datetime(..., format="%d%m%Y")`: eight digits `DDMMYYYY`,
validated as a real calendar date. -/
def parseDDMMYYYY (s : String) : Option Date :=
  let l := s.toList
  if l.length = 8 && l.all Char.isDigit then
    let d := natOfDigits (l.take 2)
    let m := natOfDigits ((l.drop 2).take 2)
    let y := natOfDigits (l.drop 4)
    if 1 ≤ m && m ≤ 12 && 1 ≤ d && d ≤ daysInMonth y m then some ⟨d, m, y⟩ else none
  else none

/-- `pd.to_datetime(..., format="mixed", dayfirst=True)` restricted to the
dotted day-first shape `D.M.YYYY` that the anchor-date field carries. -/
def parseDayFirstDotted (s : String) : Option Date :=
  match s.toList.splitOn '.' with
  | [d, m, y] =>
    if !d.isEmpty && !m.isEmpty && !y.isEmpty
        && d.all Char.isDigit && m.all Char.isDigit && y.all Char.isDigit then
      let dn := natOfDigits d
      let mn := natOfDigits m
      let yn := natOfDigits y
      if 1 ≤ mn && mn ≤ 12 && 1 ≤ dn && dn ≤ daysInMonth yn mn then some ⟨dn, mn, yn⟩
      else none
    else none
  | _ => none

/-- Parse a token as a 16-bit integer (`pd.to_numeric(...).astype("Int16")`). -/
def parseInt16 (s : String) : Option Int :=
  match parseDecimal s with
  | some q =>
    if q.den = 1 && -(2 ^ 15) ≤ q.num && q.num < 2 ^ 15 then some q.num else none
  | none => none

/-- The multi-word city replacements of `normalize_filename_txt_kf`,
in source (insertion) order. -/
def cityReplacements : List (String × String) :=
  [("Dugo_Selo", "Dugo Selo"),
   ("Slavonski_Brod", "Slavonski Brod"),
   ("Velika_Gorica", "Velika Gorica"),
   ("Nova_Gradiska", "Nova Gradiska"),
   ("Zagreb_Blato", "Zagreb Blato")]

/-- `normalize_filename_txt_kf`: strip a `.csv` suffix and whitespace,
apply the multi-word city replacements, split on runs of underscores. -/
def normalize_filename_txt_kf (x : String) : List String :=
  let x := pyStrip (removeSuf x ".csv")
  let x := cityReplacements.foldl (fun s p => pyReplace s p.1 p.2) x
  splitUnderscoreRuns x

/-- The metadata record produced from one manifest filename. -/
structure FileMeta where
  store_size : String
  address : String
  city : String
  store_id : String
  date : String
  time : String
deriving DecidableEq, Repr

/-- Error message of the `case _` branch (`Invalid component structure`). -/
def invalidStructureMsg (parts : List String) : String :=
  "Invalid component structure: " ++ String.intercalate ", " parts

/-- `filename_structure_match_kf`: match `[size, *address, city, id, date,
time]`; the star pattern may be empty, so any list of at least five tokens
matches, and anything shorter raises. -/
def filename_structure_match_kf : List String → Except String FileMeta
  | [] => .error (invalidStructureMsg [])
  | size :: rest =>
    match rest.reverse with
    | time :: date :: sid :: city :: revAddr =>
      .ok ⟨size, String.intercalate " " revAddr.reverse, city, sid, date, time⟩
    | _ => .error (invalidStructureMsg (size :: rest))

/-- One manifest entry after `fetch_stores_dates` converts the date and
store-id columns. -/
structure ManifestEntry where
  store_size : String
  address : String
  city : String
  store_id : Int
  date : Date
  time : String
deriving DecidableEq, Repr

/-- Per-label composition of `normalize_filename_txt_kf`,
`filename_structure_match_kf` and the date / store-id conversions of
`fetch_stores_dates` (which raise on unparseable values). -/
def manifestEntryOfLabel (label : String) : Except String ManifestEntry := do
  let meta ← filename_structure_match_kf (normalize_filename_txt_kf label)
  match parseDDMMYYYY meta.date, parseInt16 meta.store_id with
  | some d, some n =>
    .ok ⟨meta.store_size, meta.address, meta.city, n, d, meta.time⟩
  | _, _ => .error ("unparseable date or store id: " ++ meta.date ++ " " ++ meta.store_id)

/-- `PRICE_MAP` from the source: price-related header renames. -/
def PRICE_MAP : List (String × String) :=
  [("maloprod.cijena(EUR)", "price"),
   ("cijena jed.mj.(EUR)", "unit_price"),
   ("MPC poseb.oblik prod", "special_price"),
   ("Najniža MPC u 30dana", "best_price_30"),
   ("Sidrena cijena", "anchor_price_date")]

/-- `FIELD_MAP` from the source: identity / attribute header renames. -/
def FIELD_MAP : List (String × String) :=
  [("naziv proizvoda", "product_name"),
   ("šifra proizvoda", "product_id"),
   ("marka proizvoda", "brand"),
   ("akc.cijena, A=akcija", "is_akcija"),
   ("jed.mj. (1 KOM/L/KG)", "jed_mj"),
   ("kol.jed.mj.", "kol_jed_mj"),
   ("neto količina(KG)", "quantity"),
   ("jedinica mjere", "unit"),
   ("barkod", "barcode"),
   ("WG", "category")]

/-- The merged rename table `PRICE_MAP | FIELD_MAP` (keys are disjoint,
so list concatenation models the dict union). -/
def KF_RENAME : List (String × String) := PRICE_MAP ++ FIELD_MAP

/-- Rename one header through an association table; headers not in the
table pass through unchanged (pandas `rename` semantics). -/
def renameHeader (m : List (String × String)) (h : String) : String :=
  match m.find? (fun p => p.1 == h) with
  | some p => p.2
  | none => h

/-- One column of a loaded table: a header plus its cell values. -/
structure Column where
  header : String
  values : List PVal
deriving DecidableEq, Repr

/-- A loaded table is its list of columns. -/
def Table := List Column

/-- `df.rename(columns=PRICE_MAP | FIELD_MAP)`: map every header through
the merged table, touching no cell value. -/
def rename_columns (cols : List Column) : List Column :=
  cols.map (fun c => ⟨renameHeader KF_RENAME c.header, c.values⟩)

/-- The two encodings `read_csv_kf` tries, in order. -/
inductive Encoding where
  | utf8
  | windows1250
deriving DecidableEq, Repr

/-- Options passed to `pd.read_csv`: separator, decimal mark, and the
columns forced to raw string dtype. -/
structure CsvOptions where
  delimiter : Char
  decimal : Char
  rawStrCols : List String
deriving DecidableEq, Repr

/-- The options both calls in `read_csv_kf` pass: tab separator, comma
decimal, and `Najniža MPC u 30dana` read as a raw string. -/
def kfCsvOptions : CsvOptions :=
  ⟨'\t', ',', ["Najniža MPC u 30dana"]⟩

/-- Outcome of one underlying `pd.read_csv` call: a table, a
`UnicodeDecodeError`, or some other exception. -/
inductive ReadOutcome where
  | ok (t : Table)
  | decodeErr
  | otherErr (msg : String)

/-- `read_csv_kf`, parameterised by the underlying reader: try UTF-8; a
decode failure is caught and windows-1250 is tried once, whose failures of
any kind are caught and logged, yielding `none`; a non-decode failure of
the first attempt propagates (only `UnicodeDecodeError` is caught there).
Also returns the trace of `(encoding, options)` calls made. -/
def read_csv_kf (read : Encoding → CsvOptions → ReadOutcome) :
    Except String (Option Table) × List (Encoding × CsvOptions) :=
  match read Encoding.utf8 kfCsvOptions with
  | .ok t => (.ok (some t), [(Encoding.utf8, kfCsvOptions)])
  | .decodeErr =>
    (match read Encoding.windows1250 kfCsvOptions with
     | .ok t => .ok (some t)
     | .decodeErr => .ok none
     | .otherErr _ => .ok none,
     [(Encoding.utf8, kfCsvOptions), (Encoding.windows1250, kfCsvOptions)])
  | .otherErr m => (.error m, [(Encoding.utf8, kfCsvOptions)])

/-- A numpy float value: NaN (also modelling `pd.NA`), a finite value, or
a signed infinity. -/
inductive FVal where
  | na
  | finite (q : Rat)
  | posInf
  | negInf
deriving DecidableEq, Repr

/-- numpy float subtraction. -/
def fsub : FVal → FVal → FVal
  | .na, _ => .na
  | _, .na => .na
  | .finite a, .finite b => .finite (a - b)
  | .finite _, .posInf => .negInf
  | .finite _, .negInf => .posInf
  | .posInf, .posInf => .na
  | .posInf, _ => .posInf
  | .negInf, .negInf => .na
  | .negInf, _ => .negInf

/-- numpy float division: a nonzero finite value divided by zero
overflows to a signed infinity, `0/0` is NaN. -/
def fdiv : FVal → FVal → FVal
  | .na, _ => .na
  | _, .na => .na
  | .finite a, .finite b =>
    if b = 0 then (if a = 0 then .na else if 0 < a then .posInf else .negInf)
    else .finite (a / b)
  | .finite _, .posInf => .finite 0
  | .finite _, .negInf => .finite 0
  | .posInf, .finite b => if 0 ≤ b then .posInf else .negInf
  | .negInf, .finite b => if 0 ≤ b then .negInf else .posInf
  | _, _ => .na

/-- The `price_anchor_diff` assignment of `tidy`:
`(price - anchor_price) / anchor_price` under numpy float semantics. -/
def price_anchor_diff (price anchor : FVal) : FVal :=
  fdiv (fsub price anchor) anchor

/-- `.str.removesuffix("€").str.removesuffix("€ur")` applied to the
anchor-price half in `tidy`. -/
def stripCurrency (s : String) : String :=
  removeSuf (removeSuf s "€") "€ur"

/-- The anchor-price column pipeline of `tidy` on one cell: strip currency
suffixes, normalise the decimal separator, then `pd.to_numeric` (which
raises on a string it cannot parse — modelled by `Except`). -/
def tidy_anchor_price (v : Option String) : Except String (Option Rat) :=
  match v with
  | none => .ok none
  | some s =>
    match replace_with_dot_if_number (.str (stripCurrency s)) with
    | .na => .ok none
    | .num q => .ok (some q)
    | .str t =>
      match parseDecimal t with
      | some q => .ok (some q)
      | none => .error t

/-- The anchor-date column pipeline of `tidy` on one cell:
`.str.removeprefix("MPC").str.strip()` then the day-first datetime parse
with `errors="coerce"` (unparseable becomes missing). -/
def tidy_anchor_date (v : Option String) : Option Date :=
  match v with
  | none => none
  | some s => parseDayFirstDotted (pyStrip (removePref s "MPC"))

/-- pandas `Series.replace("A", "1")` on one cell: whole-value match. -/
def seriesReplaceExact (old new : String) : PVal → PVal
  | .str s => if s == old then .str new else .str s
  | v => v

/-- pandas `Series.fillna("0")` on one cell. -/
def seriesFillna (d : String) : PVal → PVal
  | .na => .str d
  | v => v

/-- `pd.to_numeric` with default `errors="raise"` on one cell. -/
def toNumericStrict : PVal → Except String Rat
  | .na => .error "missing"
  | .num q => .ok q
  | .str s =>
    match parseDecimal s with
    | some q => .ok q
    | none => .error s

/-- The `is_akcija` assignment of `tidy`:
`pd.to_numeric(col.replace("A", "1").fillna("0"), downcast="integer")`. -/
def tidy_is_akcija (v : PVal) : Except String Rat :=
  toNumericStrict (seriesFillna "0" (seriesReplaceExact "A" "1" v))

/-- The cheese-name patterns of `FILT_SIR` (regex alternation of
literals, matched case-insensitively). -/
def SIR_PATTERNS : List String :=
  ["halloumi", "parmi", "pecorino", "padano"]

/-- `str.contains(..., case=False)` for a literal pattern. -/
def containsCI (s pat : String) : Bool :=
  containsSub (pat.toList.map Char.toLower) (s.toList.map Char.toLower)

/-- `FILT_SIR` on one row: a case-insensitive match against any cheese
name AND `quantity >= .2` (a missing quantity compares false). -/
def FILT_SIR (product_name : String) (quantity : Option Rat) : Bool :=
  SIR_PATTERNS.any (fun p => containsCI product_name p) &&
    (match quantity with
     | some q => decide ((1 : Rat) / 5 ≤ q)
     | none => false)

/-! ## Helper lemmas -/

theorem str_toList_append (s t : String) : (s ++ t).toList = s.toList ++ t.toList :=
  String.data_append s t

theorem str_mk_toList (s : String) : String.mk s.toList = s := rfl

theorem str_toList_eq_nil_iff (s : String) : s.toList = [] ↔ s = "" := by
  constructor
  · intro h
    have h2 : String.mk s.toList = String.mk [] := by rw [h]
    rwa [str_mk_toList] at h2
  · intro h
    rw [h]
    rfl

theorem takeWhile_append_stop (p : Char → Bool) (l1 : List Char)
    (h : ∀ x ∈ l1, p x = true) (c : Char) (hc : p c = false) (l2 : List Char) :
    ((l1 ++ c :: l2).takeWhile p) = l1 := by
  induction l1 with
  | nil => simp [List.takeWhile_cons, hc]
  | cons x xs ih =>
    have hx : p x = true := h x (by simp)
    rw [List.cons_append, List.takeWhile_cons_of_pos hx,
      ih (fun y hy => h y (by simp [hy]))]

theorem dropWhile_append_stop (p : Char → Bool) (l1 : List Char)
    (h : ∀ x ∈ l1, p x = true) (c : Char) (hc : p c = false) (l2 : List Char) :
    ((l1 ++ c :: l2).dropWhile p) = c :: l2 := by
  induction l1 with
  | nil => simp [List.dropWhile_cons, hc]
  | cons x xs ih =>
    have hx : p x = true := h x (by simp)
    rw [List.cons_append, List.dropWhile_cons_of_pos hx]
    exact ih (fun y hy => h y (by simp [hy]))

theorem replaceAux_single (c d : Char) (l : List Char) (fuel : Nat)
    (h : l.length ≤ fuel) :
    replaceAux [c] [d] fuel l = l.map (fun x => if x = c then d else x) := by
  induction l generalizing fuel with
  | nil => cases fuel <;> rfl
  | cons x xs ih =>
    cases fuel with
    | zero => simp at h
    | succ f =>
      have hlen : xs.length ≤ f := Nat.le_of_succ_le_succ h
      by_cases hx : x = c
      · subst hx
        have hpre : ([x].isPrefixOf (x :: xs)) = true := by
          simp [List.isPrefixOf]
        simp [replaceAux, hpre, ih f hlen]
      · have hpre : ([c].isPrefixOf (x :: xs)) = false := by
          simp [List.isPrefixOf]
          exact fun hcx => absurd hcx.symm hx
        simp [replaceAux, hpre, ih f hlen, hx]

theorem short_parts_error (parts : List String) (h : parts.length < 5) :
    filename_structure_match_kf parts = .error (invalidStructureMsg parts) := by
  match parts with
  | [] => rfl
  | [a] => rfl
  | [a, b] => rfl
  | [a, b, c] => rfl
  | [a, b, c, d] => rfl
  | a :: b :: c :: d :: e :: rest => exact absurd h (by simp)

theorem match_ok_shape (size : String) (mid : List String)
    (city sid dateS timeS : String) :
    filename_structure_match_kf (size :: mid ++ [city, sid, dateS, timeS]) =
      .ok ⟨size, String.intercalate " " mid, city, sid, dateS, timeS⟩ := by
  have hrev : (mid ++ [city, sid, dateS, timeS]).reverse
      = timeS :: dateS :: sid :: city :: mid.reverse := by
    simp
  simp [filename_structure_match_kf, hrev]

theorem renameHeader_unmapped (m : List (String × String)) (h : String)
    (hm : ∀ p ∈ m, p.1 ≠ h) : renameHeader m h = h := by
  have : m.find? (fun p => p.1 == h) = none := by
    rw [List.find?_eq_none]
    intro p hp
    simpa using hm p hp
  simp [renameHeader, this]

theorem pyEndsWith_append_self (s t : String) : pyEndsWith (s ++ t) t = true := by
  rw [pyEndsWith, str_toList_append]
  rw [List.isSuffixOf_iff_suffix]
  exact List.suffix_append _ _

theorem removeSuf_append_self (s t : String) : removeSuf (s ++ t) t = s := by
  rw [removeSuf, if_pos (pyEndsWith_append_self s t), str_toList_append]
  rw [List.length_append, Nat.add_sub_cancel, List.take_left, str_mk_toList]

theorem removeSuf_of_not_suffix (s t : String) (h : pyEndsWith s t = false) :
    removeSuf s t = s := by
  rw [removeSuf, if_neg]
  simp [h]

theorem eur_not_endsWith_euro (s : String) : pyEndsWith (s ++ "€ur") "€" = false := by
  have h1 : ("€ur" : String).toList = ['€', 'u', 'r'] := rfl
  have h2 : ("€" : String).toList = ['€'] := rfl
  rw [pyEndsWith, str_toList_append, h1, h2]
  rw [show List.isSuffixOf ['€'] (s.toList ++ ['€', 'u', 'r'])
      = List.isPrefixOf ['€'] ((s.toList ++ ['€', 'u', 'r']).reverse) from rfl]
  rw [List.reverse_append]
  simp [List.isPrefixOf]

theorem stripCurrency_eur (s : String) : stripCurrency (s ++ "€ur") = s := by
  rw [stripCurrency, removeSuf_of_not_suffix _ _ (eur_not_endsWith_euro s),
    removeSuf_append_self]

theorem stripCurrency_euro (s : String) (h : pyEndsWith s "€ur" = false) :
    stripCurrency (s ++ "€") = s := by
  rw [stripCurrency, removeSuf_append_self, removeSuf_of_not_suffix _ _ h]

theorem pyReplace_comma_dot (l : List Char) :
    pyReplace (String.mk l) "," "." =
      String.mk (l.map fun x => if x = ',' then '.' else x) := by
  have hc : ("," : String).toList = [','] := rfl
  have hd : ("." : String).toList = ['.'] := rfl
  rw [pyReplace, if_neg (by simp [hc])]
  rw [show (String.mk l).toList = l from rfl, hc, hd,
    replaceAux_single ',' '.' l l.length (Nat.le_refl _)]

theorem map_id_of_mem (f : Char → Char) (l : List Char) (h : ∀ x ∈ l, f x = x) :
    l.map f = l := by
  induction l with
  | nil => rfl
  | cons x xs ih =>
    rw [List.map_cons, h x (by simp), ih (fun y hy => h y (by simp [hy]))]

/-! ## Claim theorems -/

/-- C1 counterexample: the claim says a zero `anchor_price` must yield
null, but `(1 - 0) / 0` under the code's numpy float semantics is
positive infinity, not null. -/
theorem C1_zero_anchor_counterexample :
    price_anchor_diff (FVal.finite 1) (FVal.finite 0) = FVal.posInf ∧
      FVal.posInf ≠ FVal.na := by
  constructor
  · norm_num [price_anchor_diff, fsub, fdiv]
  · intro h
    exact FVal.noConfusion h

/-- C1 (amended): `price_anchor_diff` is null whenever `price` or
`anchor_price` is null, and equals `(price - anchor_price) / anchor_price`
whenever both are finite and `anchor_price` is nonzero; but a zero
`anchor_price` with a nonzero finite `price` yields a signed infinity
(null only in the `0 / 0` case), never a crash. -/
theorem C1_price_anchor_diff_amended :
    (∀ p, price_anchor_diff p FVal.na = FVal.na) ∧
    (∀ a, price_anchor_diff FVal.na a = FVal.na) ∧
    (∀ p a : Rat, a ≠ 0 →
      price_anchor_diff (FVal.finite p) (FVal.finite a) = FVal.finite ((p - a) / a)) ∧
    (∀ p : Rat, 0 < p →
      price_anchor_diff (FVal.finite p) (FVal.finite 0) = FVal.posInf) ∧
    (∀ p : Rat, p < 0 →
      price_anchor_diff (FVal.finite p) (FVal.finite 0) = FVal.negInf) ∧
    price_anchor_diff (FVal.finite 0) (FVal.finite 0) = FVal.na := by
  refine ⟨?_, ?_, ?_, ?_, ?_, ?_⟩
  · intro p; cases p <;> rfl
  · intro a; cases a <;> rfl
  · intro p a h
    simp [price_anchor_diff, fsub, fdiv, h]
  · intro p hp
    have h1 : p - 0 ≠ 0 := by simpa using ne_of_gt hp
    simp [price_anchor_diff, fsub, fdiv, h1, hp, ne_of_gt hp]
  · intro p hp
    have h1 : p - 0 ≠ 0 := by simpa using ne_of_lt hp
    have h2 : ¬(0 < p) := asymm hp
    simp [price_anchor_diff, fsub, fdiv, h1, h2, ne_of_lt hp]
  · norm_num [price_anchor_diff, fsub, fdiv]

/-- C1 witness for the amended theorem: price 3, anchor 2 gives the
ratio 1/2. -/
theorem C1_price_anchor_diff_amended_witness :
    price_anchor_diff (FVal.finite 3) (FVal.finite 2) = FVal.finite (1 / 2) := by
  have h := C1_price_anchor_diff_amended.2.2.1 3 2 (by norm_num)
  rw [h]
  norm_num

/-- C2: a normalized token list `[size] [address-tokens...] [city]
[store_id] [date] [time]` is mapped to a record with the first token as
store size, the middle tokens joined by spaces as address, and the last
four tokens as city, store id, date and time; any shorter token list
raises an error naming the offending tokens; and the label
`Hiper_Ilica_123_Zagreb_2030_01012024_1200.csv` yields store size
`Hiper`, address `Ilica 123`, city `Zagreb`, store id 2030 (a 16-bit
integer), date 2024-01-01 (parsed `DDMMYYYY`) and time `1200`. -/
theorem C2_manifest_label_grammar :
    (∀ size mid city sid dateS timeS,
      filename_structure_match_kf (size :: mid ++ [city, sid, dateS, timeS]) =
        .ok ⟨size, String.intercalate " " mid, city, sid, dateS, timeS⟩) ∧
    (∀ parts : List String, parts.length < 5 →
      filename_structure_match_kf parts = .error (invalidStructureMsg parts)) ∧
    manifestEntryOfLabel "Hiper_Ilica_123_Zagreb_2030_01012024_1200.csv" =
      .ok ⟨"Hiper", "Ilica 123", "Zagreb", 2030, ⟨1, 1, 2024⟩, "1200"⟩ :=
  ⟨match_ok_shape, short_parts_error, rfl⟩

/-- C2 witness: a two-token list is rejected with an error naming it. -/
theorem C2_manifest_label_grammar_witness :
    filename_structure_match_kf ["Hiper", "Zagreb"] =
      .error (invalidStructureMsg ["Hiper", "Zagreb"]) :=
  C2_manifest_label_grammar.2.1 ["Hiper", "Zagreb"] (by decide)

/-- C10 (implicit): a token list of exactly five tokens is a legal parse
whose address is the empty string, and `filename_structure_match_kf`
errors exactly on token lists with fewer than five tokens. -/
theorem C10_five_token_parse :
    (∀ a b c d e : String,
      filename_structure_match_kf [a, b, c, d, e] = .ok ⟨a, "", b, c, d, e⟩) ∧
    (∀ parts : List String,
      (∃ m, filename_structure_match_kf parts = .error m) ↔ parts.length < 5) := by
  constructor
  · intro a b c d e
    rfl
  · intro parts
    constructor
    · rintro ⟨m, hm⟩
      by_contra h5
      push_neg at h5
      rcases parts with _ | ⟨size, rest⟩
      · simp at h5
      have hr : 4 ≤ rest.length := by
        simp only [List.length_cons] at h5
        omega
      rcases hrev : rest.reverse with _ | ⟨t1, rev1⟩
      · have hl := congrArg List.length hrev
        simp only [List.length_reverse, List.length_nil] at hl
        omega
      rcases rev1 with _ | ⟨t2, rev2⟩
      · have hl := congrArg List.length hrev
        simp only [List.length_reverse, List.length_cons, List.length_nil] at hl
        omega
      rcases rev2 with _ | ⟨t3, rev3⟩
      · have hl := congrArg List.length hrev
        simp only [List.length_reverse, List.length_cons, List.length_nil] at hl
        omega
      rcases rev3 with _ | ⟨t4, rev4⟩
      · have hl := congrArg List.length hrev
        simp only [List.length_reverse, List.length_cons, List.length_nil] at hl
        omega
      · rw [show filename_structure_match_kf (size :: rest)
            = (match rest.reverse with
               | time :: date :: sid :: city :: revAddr =>
                 Except.ok ⟨size, String.intercalate " " revAddr.reverse,
                   city, sid, date, time⟩
               | _ => Except.error (invalidStructureMsg (size :: rest))) from rfl,
          hrev] at hm
        exact Except.noConfusion hm
    · intro h
      exact ⟨_, short_parts_error parts h⟩

/-- C10 witness: a single-token list is rejected. -/
theorem C10_five_token_parse_witness :
    ∃ m, filename_structure_match_kf ["Super"] = .error m :=
  (C10_five_token_parse.2 ["Super"]).mpr (by decide)

/-- C3: anchor-price cleanup strips both trailing currency marker forms
(`€` and `€ur`), turns a remaining nonempty string's commas into dots
before the numeric parse, passes numbers through unchanged, maps an empty
string after stripping to null; and the row
`anchor_price_date = "MPC 01.12.2023=12,50 €"` yields anchor date
2023-12-01 and anchor price 12.50. -/
theorem C3_anchor_price_cleanup :
    (∀ s : String, stripCurrency (s ++ "€ur") = s) ∧
    (∀ s : String, pyEndsWith s "€ur" = false → stripCurrency (s ++ "€") = s) ∧
    (∀ q : Rat, replace_with_dot_if_number (.num q) = .num q) ∧
    (∀ s : String, s ≠ "" →
      replace_with_dot_if_number (.str s) = .str (pyReplace s "," ".")) ∧
    replace_with_dot_if_number (.str "") = PVal.na ∧
    tidy_anchor_price (some "€") = .ok none ∧
    prepare_anchor (some "MPC 01.12.2023=12,50 €") =
      ((some "MPC 01.12.2023", some "12,50 €"), false) ∧
    tidy_anchor_date (some "MPC 01.12.2023") = some ⟨1, 12, 2023⟩ ∧
    tidy_anchor_price (some "12,50 €") = .ok (some (25 / 2)) := by
  refine ⟨stripCurrency_eur, stripCurrency_euro, fun q => rfl, ?_, rfl, rfl, rfl, rfl, ?_⟩
  · intro s hs
    have h' : ¬(s.toList.length = 0) := fun h =>
      hs ((str_toList_eq_nil_iff s).mp (List.length_eq_zero.mp h))
    simp only [replace_with_dot_if_number]
    rw [if_neg h']
  · have h0 : tidy_anchor_price (some "12,50 €") =
        .ok (some (((12 : Nat) : Rat) + ((50 : Nat) : Rat) / (10 : Rat) ^ (2 : Nat))) := rfl
    rw [h0]
    have h1 : ((12 : Nat) : Rat) + ((50 : Nat) : Rat) / (10 : Rat) ^ (2 : Nat) = 25 / 2 := by
      push_cast
      norm_num
    rw [h1]

/-- C3 witness: a value ending in a lone `€` has the marker stripped. -/
theorem C3_anchor_price_cleanup_witness :
    stripCurrency ("12,50 " ++ "€") = "12,50 " :=
  C3_anchor_price_cleanup.2.1 "12,50 " (by decide)

/-- C4: `prepare_anchor` splits a string with exactly one `=` into its
trimmed halves without warning; a string with zero or several `=`, or a
missing value, yields two nulls plus a warning, and never raises (the
function is total). -/
theorem C4_prepare_anchor_spec :
    (∀ l r : String, '=' ∉ l.toList → '=' ∉ r.toList →
      prepare_anchor (some (l ++ "=" ++ r)) =
        ((some (pyStrip l), some (pyStrip r)), false)) ∧
    (∀ s : String, (s.toList.filter (fun c => c = '=')).length ≠ 1 →
      prepare_anchor (some s) = ((none, none), true)) ∧
    prepare_anchor none = ((none, none), true) := by
  refine ⟨?_, ?_, rfl⟩
  · intro l r hl hr
    have htl : (l ++ "=" ++ r).toList = l.toList ++ '=' :: r.toList := by
      rw [str_toList_append, str_toList_append, List.append_assoc]
      rfl
    have hfl : List.filter (fun c => decide (c = '=')) l.data = [] := by
      rw [List.filter_eq_nil_iff]
      intro a ha
      simp only [decide_eq_true_eq]
      exact fun he => hl (he ▸ ha)
    have hfr : List.filter (fun c => decide (c = '=')) r.data = [] := by
      rw [List.filter_eq_nil_iff]
      intro a ha
      simp only [decide_eq_true_eq]
      exact fun he => hr (he ▸ ha)
    simp only [prepare_anchor]
    rw [htl]
    rw [if_neg (by simp [List.filter_append, hfl, hfr])]
    rw [takeWhile_append_stop _ l.toList
        (fun x hx => by
          simp only [decide_not, Bool.not_eq_true', decide_eq_false_iff_not]
          exact fun he => hl (he ▸ hx))
        '=' (by decide) r.toList,
      dropWhile_append_stop _ l.toList
        (fun x hx => by
          simp only [decide_not, Bool.not_eq_true', decide_eq_false_iff_not]
          exact fun he => hl (he ▸ hx))
        '=' (by decide) r.toList]
    simp [str_mk_toList]
  · intro s h
    simp only [prepare_anchor]
    rw [if_pos]
    simpa using h

/-- C4 witness: a well-formed composite is split into trimmed halves. -/
theorem C4_prepare_anchor_spec_witness :
    prepare_anchor (some ("MPC 01.12.2023" ++ "=" ++ "12,50 €")) =
      ((some (pyStrip "MPC 01.12.2023"), some (pyStrip "12,50 €")), false) :=
  C4_prepare_anchor_spec.1 "MPC 01.12.2023" "12,50 €" (by decide) (by decide)

/-- C5: the loader first calls the reader with UTF-8 and the fixed
options (tab separator, comma decimal, `Najniža MPC u 30dana` as raw
string); on a decode failure it retries exactly once with windows-1250
and the same options; if that retry also fails (in any way) the result is
`none`, returned rather than raised; every call it makes carries the
raw-string dtype for the designated column. -/
theorem C5_read_csv_kf_spec :
    (∀ read e o, (e, o) ∈ (read_csv_kf read).2 →
      o.rawStrCols = ["Najniža MPC u 30dana"]) ∧
    (∀ read, (read_csv_kf read).2.head? = some (Encoding.utf8, kfCsvOptions)) ∧
    (∀ read t, read Encoding.utf8 kfCsvOptions = .ok t →
      read_csv_kf read = (.ok (some t), [(Encoding.utf8, kfCsvOptions)])) ∧
    (∀ read, read Encoding.utf8 kfCsvOptions = .decodeErr →
      (read_csv_kf read).2 =
        [(Encoding.utf8, kfCsvOptions), (Encoding.windows1250, kfCsvOptions)]) ∧
    (∀ read, read Encoding.utf8 kfCsvOptions = .decodeErr →
      (∀ t, read Encoding.windows1250 kfCsvOptions ≠ .ok t) →
      (read_csv_kf read).1 = .ok none) ∧
    (∀ read t, read Encoding.utf8 kfCsvOptions = .decodeErr →
      read Encoding.windows1250 kfCsvOptions = .ok t →
      (read_csv_kf read).1 = .ok (some t)) := by
  refine ⟨?_, ?_, ?_, ?_, ?_, ?_⟩
  · intro read e o hmem
    rcases h1 : read Encoding.utf8 kfCsvOptions with t | _ | m <;>
      simp only [read_csv_kf, h1] at hmem <;>
      simp at hmem
    · rw [hmem.2]
      rfl
    · rcases hmem with ⟨_, ho⟩ | ⟨_, ho⟩ <;> (rw [ho]; rfl)
    · rw [hmem.2]
      rfl
  · intro read
    rcases h1 : read Encoding.utf8 kfCsvOptions with t | _ | m <;>
      simp [read_csv_kf, h1]
  · intro read t1 h1
    simp [read_csv_kf, h1]
  · intro read h1
    simp [read_csv_kf, h1]
  · intro read h1 h2
    rcases hw : read Encoding.windows1250 kfCsvOptions with t | _ | m
    · exact absurd hw (h2 t)
    · simp [read_csv_kf, h1, hw]
    · simp [read_csv_kf, h1, hw]
  · intro read t h1 h2
    simp [read_csv_kf, h1, h2]

/-- C5 witness: a reader failing to decode under both encodings yields an
absent table, not an error. -/
theorem C5_read_csv_kf_spec_witness :
    (read_csv_kf (fun _ _ => ReadOutcome.decodeErr)).1 = .ok none :=
  C5_read_csv_kf_spec.2.2.2.2.1 (fun _ _ => ReadOutcome.decodeErr) rfl
    (fun t h => ReadOutcome.noConfusion h)

/-- C6: a numeric string written with a comma separator (digits, comma,
digits) is turned into the same string with a dot separator; an
already-numeric value passes through unchanged; the empty string and a
missing value become null. -/
theorem C6_replace_with_dot_spec :
    (∀ a b : List Char, (∀ c ∈ a, c.isDigit = true) → (∀ c ∈ b, c.isDigit = true) →
      replace_with_dot_if_number (.str (String.mk (a ++ ',' :: b))) =
        .str (String.mk (a ++ '.' :: b))) ∧
    (∀ q : Rat, replace_with_dot_if_number (.num q) = .num q) ∧
    replace_with_dot_if_number (.str "") = PVal.na ∧
    replace_with_dot_if_number PVal.na = PVal.na := by
  refine ⟨?_, fun q => rfl, rfl, rfl⟩
  intro a b ha hb
  have hne : ¬((String.mk (a ++ ',' :: b)).toList.length = 0) := by
    show ¬((a ++ ',' :: b).length = 0)
    simp
  simp only [replace_with_dot_if_number]
  rw [if_neg hne, pyReplace_comma_dot]
  have hfa : a.map (fun x => if x = ',' then '.' else x) = a :=
    map_id_of_mem _ _ (fun x hx => by
      have hxd : x ≠ ',' := fun he => by
        have := ha x hx
        rw [he] at this
        exact absurd this (by decide)
      simp [hxd])
  have hfb : b.map (fun x => if x = ',' then '.' else x) = b :=
    map_id_of_mem _ _ (fun x hx => by
      have hxd : x ≠ ',' := fun he => by
        have := hb x hx
        rw [he] at this
        exact absurd this (by decide)
      simp [hxd])
  simp [hfa, hfb]

/-- C6 witness: the comma in `12,5` becomes a dot. -/
theorem C6_replace_with_dot_spec_witness :
    replace_with_dot_if_number (.str (String.mk (['1', '2'] ++ ',' :: ['5']))) =
      .str (String.mk (['1', '2'] ++ '.' :: ['5'])) :=
  C6_replace_with_dot_spec.1 ['1', '2'] ['5'] (by decide) (by decide)

/-- C7: the tidied `is_akcija` value is exactly 1 for the source flag
`"A"` and exactly 0 for a blank (missing) flag, and both results are
integral values small enough for the compact integer type pandas
downcasts to. -/
theorem C7_is_akcija_flag :
    tidy_is_akcija (PVal.str "A") = .ok 1 ∧
    tidy_is_akcija PVal.na = .ok 0 ∧
    (1 : Rat).den = 1 ∧ (0 : Rat).den = 1 ∧
    (1 : Rat).num < 2 ^ 7 ∧ 0 ≤ (0 : Rat).num := by
  refine ⟨rfl, rfl, ?_, ?_, ?_, ?_⟩ <;> norm_num

/-- C8: the Cheese filter selects a row exactly when the product name
matches one of the fixed cheese substrings case-insensitively and the
quantity is at least 0.2; a matching cheese with quantity 0.15 is
rejected and one with 0.25 accepted. -/
theorem C8_filt_sir_spec :
    (∀ (name : String) (qty : Option Rat),
      FILT_SIR name qty = true ↔
        ((∃ p ∈ SIR_PATTERNS, containsCI name p = true) ∧
          ∃ q, qty = some q ∧ (1 : Rat) / 5 ≤ q)) ∧
    FILT_SIR "SIR HALLOUMI" (some (15 / 100)) = false ∧
    FILT_SIR "SIR HALLOUMI" (some (25 / 100)) = true := by
  have hiff : ∀ (name : String) (qty : Option Rat),
      FILT_SIR name qty = true ↔
        ((∃ p ∈ SIR_PATTERNS, containsCI name p = true) ∧
          ∃ q, qty = some q ∧ (1 : Rat) / 5 ≤ q) := by
    intro name qty
    cases qty with
    | none => simp [FILT_SIR]
    | some q => simp [FILT_SIR, List.any_eq_true]
  refine ⟨hiff, ?_, ?_⟩
  · have hcontains : SIR_PATTERNS.any (fun p => containsCI "SIR HALLOUMI" p) = true := rfl
    simp only [FILT_SIR, hcontains, Bool.true_and]
    exact decide_eq_false (by norm_num)
  · have hcontains : SIR_PATTERNS.any (fun p => containsCI "SIR HALLOUMI" p) = true := rfl
    simp only [FILT_SIR, hcontains, Bool.true_and]
    exact decide_eq_true (by norm_num)

/-- C8 witness: a pecorino row with quantity 1/4 passes the filter. -/
theorem C8_filt_sir_spec_witness :
    FILT_SIR "PECORINO ROMANO" (some (1 / 4)) = true :=
  (C8_filt_sir_spec.1 "PECORINO ROMANO" (some (1 / 4))).mpr
    ⟨⟨"pecorino", by decide, by decide⟩, 1 / 4, rfl, by norm_num⟩

/-- C9: the header rename applies the merged price and identity mapping
tables to column headers only: the table keeps its column count, every
column keeps its cell values, and a column whose header is in neither map
passes through completely unchanged. -/
theorem C9_rename_pure (cols : List Column) :
    (rename_columns cols).length = cols.length ∧
    (∀ i : Nat, ((rename_columns cols).get? i).map Column.values =
      (cols.get? i).map Column.values) ∧
    (∀ (i : Nat) (c : Column), cols.get? i = some c →
      c.header ∉ KF_RENAME.map Prod.fst →
      (rename_columns cols).get? i = some c) := by
  refine ⟨by simp [rename_columns], ?_, ?_⟩
  · intro i
    rw [rename_columns, List.get?_map]
    cases cols.get? i <;> rfl
  · intro i c hc hun
    rw [rename_columns, List.get?_map, hc]
    have hhd : renameHeader KF_RENAME c.header = c.header :=
      renameHeader_unmapped _ _ (fun p hp he =>
        hun (he ▸ List.mem_map_of_mem Prod.fst hp))
    simp only [Option.map_some']
    rw [hhd]

/-- C9 witness: a column with an unmapped header survives untouched. -/
theorem C9_rename_pure_witness :
    (rename_columns [⟨"extra", [PVal.str "x"]⟩]).get? 0 =
      some ⟨"extra", [PVal.str "x"]⟩ :=
  (C9_rename_pure [⟨"extra", [PVal.str "x"]⟩]).2.2 0 ⟨"extra", [PVal.str "x"]⟩
    rfl (by decide)
